import Mathlib

/-
  Verification of the retrieval-augmented query engine of the yournal-app
  server (route file `server/src/routes/ai.ts`, endpoint `POST /chat/rag`,
  together with the `match_entries` SQL function of the database schema).

  Modelling conventions for the shallow embedding:
  * JavaScript strings are modelled as `String` where only equality and
    truncation matter, and as `List Char` where the code iterates over
    characters (`toLowerCase`, `includes`, the stream line splitter).
  * Instants (`Date` values, `created_at` timestamps) are modelled as `Int`
    milliseconds; one day is the fixed constant `86400000` used by the code
    (`24 * 60 * 60 * 1000`).  Comparison of ISO timestamp strings in the
    store queries is order-isomorphic to comparison of the instants.
  * Similarity / relevance scores (JavaScript floating point numbers
    `0.8`, `0.5`, `0.3`, and the cosine similarities produced by the
    database) are modelled in fixed point as `Int` thousandths:
    `0.8 ↦ 800`, `0.5 ↦ 500`, `0.3 ↦ 300`.  All score comparisons the code
    performs are order comparisons, which the fixed-point image preserves.
  * The external store (Supabase) is modelled by a `Store`: the table of
    rows plus one success flag per query the endpoint issues, so that every
    failure path of the orchestrator is expressible.  The vector distances
    of `match_entries` are supplied by an oracle `sim : Entry → Int`
    (`sim e` standing for `1 - (e.embedding <=> query_embedding)` in
    thousandths).  `ORDER BY` with ties is modelled by a deterministic sort
    that keeps no particular tie order (the SQL imposes none).
  * The completion service's byte stream is modelled as the list of decoded
    text chunks (`List (List Char)`) the read loop receives; `JSON.parse`
    plus the `choices[0].delta.content` projection is an abstract decoder
    `dec : List Char → Option (List Char)` (`none` both for a parse throw
    and for a parsed object without token content).
-/

namespace Yournal

/-- A row of the `entries` table as selected by the endpoint
(`id, content, text_content, created_at`) plus the owner column and
whether the row has a non-null `embedding` (used by `match_entries`). -/
structure Entry where
  id : Nat
  user_id : Nat
  created_at : Int
  text_content : Option String
  has_embedding : Bool
deriving DecidableEq, Repr

/-- An entry together with the `similarity` field the endpoint attaches
(fixed point, thousandths). -/
structure ScoredEntry where
  entry : Entry
  similarity : Int
deriving DecidableEq, Repr

/-- JavaScript `String.prototype.toLowerCase`, character by character. -/
def jsLower (s : String) : List Char := s.toList.map Char.toLower

/-- JavaScript `String.prototype.includes`: substring containment. -/
def jsIncludes (hay : List Char) (needle : List Char) : Bool :=
  decide (needle <:+: hay)

/-- The fixed keyword list of the `/chat/rag` endpoint (`temporalKeywords`). -/
def temporalKeywords : List String :=
  ["yesterday", "today", "last week", "this week", "last month",
   "this month", "recent", "past", "ago", "entries from", "from yesterday",
   "from today", "from last week", "from this week"]

/-- `isTemporalQuery` of the endpoint: some keyword, lowercased, occurs in
the lowercased message. -/
def isTemporalQuery (message : String) : Bool :=
  temporalKeywords.any (fun keyword => jsIncludes (jsLower message) (jsLower keyword))

/-- The two retrieval paths the endpoint chooses between. -/
inductive QueryClass where
  | Temporal
  | Semantic
deriving DecidableEq, Repr

/-- The classification decision (`isTemporalQuery ? Temporal : Semantic`). -/
def classify (message : String) : QueryClass :=
  if isTemporalQuery message then .Temporal else .Semantic

/-- One day in milliseconds (`24 * 60 * 60 * 1000`). -/
def dayMs : Int := 86400000

/-- The request-time clock: `today` is the midnight instant
`new Date(now.getFullYear(), now.getMonth(), now.getDate())` and `dow` is
`today.getDay()` (0 = Sunday .. 6 = Saturday). -/
structure Clock where
  today : Int
  dow : Nat
deriving DecidableEq, Repr

/-- The window computation of `handleTemporalQuery`: the `if` cascade over
`lowerMessage.includes(...)` producing `(startDate, endDate)`. -/
def resolveWindow (message : String) (ck : Clock) : Int × Int :=
  if jsIncludes (jsLower message) "yesterday".toList then
    (ck.today - dayMs, ck.today)
  else if jsIncludes (jsLower message) "today".toList then
    (ck.today, ck.today + dayMs)
  else if jsIncludes (jsLower message) "last week".toList then
    (ck.today - 7 * dayMs, ck.today)
  else if jsIncludes (jsLower message) "this week".toList then
    (ck.today - (ck.dow : Int) * dayMs, ck.today + dayMs)
  else
    (ck.today - 7 * dayMs, ck.today + dayMs)

/-- Descending insertion by a key, used to model the store's `ORDER BY ...
DESC` (ties are left in no particular order, as in the SQL). -/
def insertDescBy {α β : Type} [LinearOrder β] (k : α → β) (e : α) : List α → List α
  | [] => [e]
  | x :: xs => if k e ≤ k x then x :: insertDescBy k e xs else e :: x :: xs

/-- Descending sort by a key (model of `ORDER BY ... DESC` / `ORDER BY
distance ASC` read as similarity descending). -/
def sortDescBy {α β : Type} [LinearOrder β] (k : α → β) : List α → List α
  | [] => []
  | x :: xs => insertDescBy k x (sortDescBy k xs)

/-- `ORDER BY created_at DESC`. -/
def byCreatedDesc (l : List Entry) : List Entry :=
  sortDescBy (fun e => e.created_at) l

/-- The external store: the `entries` table plus one availability flag per
query the endpoint issues (temporal window query, `match_entries` RPC,
recent-entries fallback query). -/
structure Store where
  entries : List Entry
  temporalOk : Bool
  matchOk : Bool
  recentOk : Bool

/-- Rows returned by the temporal store query of `handleTemporalQuery`:
owner filter, `created_at` in `[s, e)`, newest first, `limit(10)`. -/
def windowRows (st : Store) (userId : Nat) (s e : Int) : List Entry :=
  ((byCreatedDesc (st.entries.filter
      (fun r => r.user_id == userId && decide (s ≤ r.created_at)
        && decide (r.created_at < e)))).take 10)

/-- The temporal store query including its failure mode. -/
def temporalWindowQuery (st : Store) (userId : Nat) (s e : Int) :
    Except Unit (List Entry) :=
  if st.temporalOk then .ok (windowRows st userId s e) else .error ()

/-- `handleTemporalQuery`: resolve the window, query the store, return `[]`
on a store error, otherwise attach `similarity: 0.8` (800 in thousandths)
to every row. -/
def handleTemporalQuery (message : String) (userId : Nat) (ck : Clock)
    (st : Store) : List ScoredEntry :=
  let w := resolveWindow message ck
  match temporalWindowQuery st userId w.1 w.2 with
  | .error _ => []
  | .ok entries => entries.map (fun entry => { entry := entry, similarity := 800 })

/-- The `match_entries` SQL function: keep the caller's rows that have an
embedding and similarity strictly above the threshold, order by distance
(similarity descending), `LIMIT match_count`, and report each row's
similarity.  `sim` is the oracle for `1 - (embedding <=> query_embedding)`
in thousandths. -/
def matchEntries (sim : Entry → Int) (matchThreshold : Int) (matchCount : Nat)
    (pUserId : Nat) (rows : List Entry) : List ScoredEntry :=
  ((sortDescBy sim (rows.filter
      (fun r => r.user_id == pUserId && r.has_embedding
        && decide (matchThreshold < sim r)))).take matchCount).map
    (fun r => { entry := r, similarity := sim r })

/-- The `supabase.rpc('match_entries', ...)` call of the semantic branch:
threshold 0.3 (300), count 5, the caller's user id; may fail. -/
def vectorSearch (sim : Entry → Int) (st : Store) (userId : Nat) :
    Except Unit (List ScoredEntry) :=
  if st.matchOk then .ok (matchEntries sim 300 5 userId st.entries) else .error ()

/-- The five most recent rows of the user (`ORDER BY created_at DESC`,
`limit(5)`) used by the recency fallback. -/
def recentTop5 (st : Store) (userId : Nat) : List Entry :=
  (byCreatedDesc (st.entries.filter (fun r => r.user_id == userId))).take 5

/-- The fallback store query including its failure mode. -/
def recentEntriesQuery (st : Store) (userId : Nat) : Except Unit (List Entry) :=
  if st.recentOk then .ok (recentTop5 st userId) else .error ()

/-- The primary retrieval of the endpoint: `(relevantEntries, searchError)`
after the `if (isTemporalQuery) ... else ...` block.  In the temporal
branch `searchError` stays `null`; in the semantic branch an RPC error
leaves `relevantEntries = result.data || [] = []` and sets `searchError`. -/
def primaryRetrieval (message : String) (userId : Nat) (ck : Clock)
    (sim : Entry → Int) (st : Store) : List ScoredEntry × Bool :=
  if isTemporalQuery message then
    (handleTemporalQuery message userId ck st, false)
  else
    match vectorSearch sim st userId with
    | .ok l => (l, false)
    | .error _ => ([], true)

/-- The recency fallback: query the five most recent rows and attach
`similarity: 0.5` (500); a failure here is the endpoint's hard error
(`500 Failed to fetch journal entries`). -/
def recencyFallback (st : Store) (userId : Nat) : Except Unit (List ScoredEntry) :=
  match recentEntriesQuery st userId with
  | .error e => .error e
  | .ok entries => .ok (entries.map (fun entry => { entry := entry, similarity := 500 }))

/-- The retrieval orchestration of `/chat/rag`: primary path, then the
fallback when `searchError || relevantEntries.length === 0`. -/
def ragRetrieve (message : String) (userId : Nat) (ck : Clock)
    (sim : Entry → Int) (st : Store) : Except Unit (List ScoredEntry) :=
  let p := primaryRetrieval message userId ck sim st
  if p.2 || p.1.isEmpty then recencyFallback st userId else .ok p.1

/-- A JavaScript expression value that is either `undefined` or a string;
result type of the optional-chained `entry.text_content?.slice(0, n)`. -/
inductive JsVal where
  | undef
  | str (s : String)
deriving DecidableEq, Repr

/-- JavaScript `s.slice(0, n)` on a string: the first `n` characters. -/
def jsSlice (s : String) (n : Nat) : String := String.mk (s.toList.take n)

/-- `entry.text_content?.slice(0, n)`: `undefined` when the field is null
or undefined, otherwise the truncation. -/
def optChainSlice (t : Option String) (n : Nat) : JsVal :=
  match t with
  | none => .undef
  | some s => .str (jsSlice s n)

/-- JavaScript `+` between a possibly-undefined left operand and a string:
`undefined` is coerced to the string `"undefined"`. -/
def jsAddStr (a : JsVal) (b : String) : String :=
  match a with
  | .undef => "undefined" ++ b
  | .str s => s ++ b

/-- JavaScript `a || b` where `a` is a string: the empty string is the only
falsy string. -/
def jsOrStr (a b : String) : String := if a = "" then b else a

/-- JavaScript `a || b` where `a` is `undefined` or a string. -/
def jsOrVal (a : JsVal) (b : String) : String :=
  match a with
  | .undef => b
  | .str s => if s = "" then b else s

/-- The `content` field of one element of `sourcesData.sources`:
`entry.text_content?.slice(0, 100) + '...' || 'No text content'`
(JavaScript `+` binds tighter than `||`). -/
def sourceContent (e : Entry) : String :=
  jsOrStr (jsAddStr (optChainSlice e.text_content 100) "...") "No text content"

/-- The `relevance` field of one element of `sourcesData.sources`:
`entry.similarity || entry.relevance || 0.8`; our scored entries always
carry `similarity` and never a `relevance` field, and `0` is falsy. -/
def relevanceField (s : Int) : Int := if s ≠ 0 then s else 800

/-- One element of the `sources` array of the sources frame. -/
structure SourceItem where
  id : Nat
  content : String
  created_at : Int
  relevance : Int
deriving DecidableEq, Repr

/-- The `sources` array sent in the first stream chunk. -/
def sourcesOf (l : List ScoredEntry) : List SourceItem :=
  l.map (fun se =>
    { id := se.entry.id, content := sourceContent se.entry,
      created_at := se.entry.created_at, relevance := relevanceField se.similarity })

/-- One `data: <json>` line of the outbound stream: either the sources
object or a `{ response: ... }` token object. -/
inductive Frame where
  | sources (items : List SourceItem)
  | token (text : List Char)
deriving DecidableEq, Repr

/-- Whether a frame is the sources frame. -/
def Frame.isSources : Frame → Bool
  | .sources _ => true
  | .token _ => false

/-- JavaScript `buffer.split('\n')` (single-character separator): always
returns at least one piece; the last piece is the text after the final
newline. -/
def splitNl : List Char → List (List Char)
  | [] => [[]]
  | c :: rest =>
    if c = '\n' then [] :: splitNl rest
    else
      match splitNl rest with
      | [] => [[c]]
      | l :: ls => (c :: l) :: ls

/-- JavaScript `String.prototype.trim`: drop whitespace at both ends. -/
def jsTrim (l : List Char) : List Char :=
  ((l.dropWhile Char.isWhitespace).reverse.dropWhile Char.isWhitespace).reverse

/-- The `data: ` marker the read loop requires on each line. -/
def sseMarker : List Char := "data: ".toList

/-- Processing of one complete line of the completion-service stream: a
line that is whitespace-only or lacks the `data: ` marker is ignored;
otherwise the text after the marker (`line.slice(6)`) is handed to the
decoder `dec` (JSON.parse plus the `choices[0]?.delta?.content`
projection; `none` models both a parse throw, which the catch turns into a
skip, and a parsed object without token content). -/
def processLine (dec : List Char → Option (List Char)) (line : List Char) :
    Option (List Char) :=
  if !(jsTrim line).isEmpty && sseMarker.isPrefixOf line then dec (line.drop 6)
  else none

/-- One iteration of the read loop on an arrived chunk: append to the
buffer, split on newlines, keep the last (possibly incomplete) piece as
the new buffer, process every completed line. -/
def chunkStep (dec : List Char → Option (List Char)) (buffer chunk : List Char) :
    List Char × List (List Char) :=
  let lines := splitNl (buffer ++ chunk)
  (lines.getLastD [], lines.dropLast.filterMap (processLine dec))

/-- The read loop over the whole chunk sequence; at `done` the remaining
buffer is discarded without being processed. -/
def readLoop (dec : List Char → Option (List Char)) :
    List Char → List (List Char) → List (List Char)
  | _, [] => []
  | buffer, chunk :: rest =>
    (chunkStep dec buffer chunk).2 ++ readLoop dec (chunkStep dec buffer chunk).1 rest

/-- The frames the custom `ReadableStream` emits.  `body` models
`response.body?.getReader()`: when the completion response has no body the
reader is undefined and `start` closes the controller at once
(`if (!reader) { controller.close(); return }`), so the stream carries no
frame at all; otherwise the sources frame comes first when
`relevantEntries.length > 0`, then one token frame per decoded increment
in arrival order. -/
def streamFrames (dec : List Char → Option (List Char))
    (relevantEntries : List ScoredEntry) (body : Option (List (List Char))) :
    List Frame :=
  match body with
  | none => []
  | some chunks =>
    (if relevantEntries.length > 0
      then [Frame.sources (sourcesOf relevantEntries)] else [])
      ++ (readLoop dec [] chunks).map Frame.token

/-- `Math.round(entry.similarity * 100)` guarded by the truthiness check
`entry.similarity ? ... : 0`, in thousandths fixed point: for a
non-negative score `s`, `Math.round(s / 10)` is `(s + 5) / 10` rounded
toward minus infinity. -/
def simPercent (s : Int) : Int := if s ≠ 0 then (s + 5) / 10 else 0

/-- The truncated body used in one context line:
`entry.text_content?.slice(0, 150) || 'No text content'`. -/
def contextSnippet (e : Entry) : String :=
  jsOrVal (optChainSlice e.text_content 150) "No text content"

/-- One line of the assembled context:
`- <date> (<relevance%> relevant): <truncated body>...`; `dateFmt` is the
oracle for `new Date(created_at).toLocaleDateString()`. -/
def contextLine (dateFmt : Int → String) (se : ScoredEntry) : String :=
  "- " ++ dateFmt se.entry.created_at ++ " (" ++ toString (simPercent se.similarity)
    ++ "% relevant): " ++ contextSnippet se.entry ++ "..."

/-- The context block handed to the completion service: the joined lines
under a header when any entries exist, otherwise the explicit no-entries
marker. -/
def contextOf (dateFmt : Int → String) (l : List ScoredEntry) : String :=
  if l.length > 0 then
    "\n\nRelevant journal entries:\n"
      ++ String.intercalate "\n" (l.map (contextLine dateFmt))
  else
    "\n\nNo relevant journal entries found."

/-- The whole `/chat/rag` request after classification: retrieval with
fallback, then the framed stream; a fallback-stage store error is the hard
500 response, returned before any stream is constructed (so no frame is
ever produced in that case). -/
def ragEndpoint (message : String) (userId : Nat) (ck : Clock)
    (sim : Entry → Int) (st : Store) (dec : List Char → Option (List Char))
    (body : Option (List (List Char))) : Except Unit (List Frame) :=
  match ragRetrieve message userId ck sim st with
  | .error e => .error e
  | .ok relevantEntries => .ok (streamFrames dec relevantEntries body)

/-- The record ids of a retrieval result, in order. -/
def entryIds (l : List ScoredEntry) : List Nat := l.map (fun se => se.entry.id)

/-- The ordering invariant the specification states for retrieval results:
relevance descending, ties broken by recency descending. -/
def resultOrdered (l : List ScoredEntry) : Prop :=
  l.Pairwise (fun a b => b.similarity < a.similarity ∨
    (a.similarity = b.similarity ∧ b.entry.created_at ≤ a.entry.created_at))

instance {ε α : Type} [DecidableEq ε] [DecidableEq α] : DecidableEq (Except ε α)
  | .ok a, .ok b =>
    if h : a = b then .isTrue (by rw [h]) else .isFalse (fun hc => h (Except.ok.inj hc))
  | .ok _, .error _ => .isFalse (fun hc => Except.noConfusion hc)
  | .error _, .ok _ => .isFalse (fun hc => Except.noConfusion hc)
  | .error a, .error b =>
    if h : a = b then .isTrue (by rw [h]) else .isFalse (fun hc => h (Except.error.inj hc))

instance (l : List ScoredEntry) : Decidable (resultOrdered l) := by
  unfold resultOrdered
  infer_instance

/-- Descending insertion permutes: inserting is reordering a cons. -/
theorem insertDescBy_perm {α β : Type} [LinearOrder β] (k : α → β) (e : α) (l : List α) :
    (insertDescBy k e l).Perm (e :: l) := by
  induction l with
  | nil => simp [insertDescBy]
  | cons x xs ih =>
    simp only [insertDescBy]
    split
    · exact (ih.cons x).trans (List.Perm.swap e x xs)
    · exact List.Perm.refl _

/-- Descending sort permutes its input. -/
theorem sortDescBy_perm {α β : Type} [LinearOrder β] (k : α → β) (l : List α) :
    (sortDescBy k l).Perm l := by
  induction l with
  | nil => simp [sortDescBy]
  | cons x xs ih => exact (insertDescBy_perm k x (sortDescBy k xs)).trans (ih.cons x)

/-- Descending insertion preserves the descending-key pairwise order. -/
theorem insertDescBy_pairwise {α β : Type} [LinearOrder β] {k : α → β} (e : α)
    {l : List α} (h : l.Pairwise (fun a b => k b ≤ k a)) :
    (insertDescBy k e l).Pairwise (fun a b => k b ≤ k a) := by
  induction l with
  | nil => simp [insertDescBy]
  | cons x xs ih =>
    rcases List.pairwise_cons.1 h with ⟨hx, hxs⟩
    simp only [insertDescBy]
    split
    case isTrue hle =>
      refine List.pairwise_cons.2 ⟨?_, ih hxs⟩
      intro y hy
      have hmem : y ∈ e :: xs := (insertDescBy_perm k e xs).mem_iff.1 hy
      rcases List.mem_cons.1 hmem with rfl | hmem'
      · exact hle
      · exact hx y hmem'
    case isFalse hlt =>
      refine List.pairwise_cons.2 ⟨?_, h⟩
      intro y hy
      rcases List.mem_cons.1 hy with rfl | hy'
      · exact le_of_not_le hlt
      · exact (hx y hy').trans (le_of_not_le hlt)

/-- The descending sort is pairwise descending in the key. -/
theorem sortDescBy_pairwise {α β : Type} [LinearOrder β] (k : α → β) (l : List α) :
    (sortDescBy k l).Pairwise (fun a b => k b ≤ k a) := by
  induction l with
  | nil => simp [sortDescBy]
  | cons x xs ih => exact insertDescBy_pairwise x ih

/-- A `ORDER BY ... DESC ... LIMIT n` block is pairwise descending. -/
theorem sortTake_pairwise {α β : Type} [LinearOrder β] (k : α → β) (l : List α) (n : Nat) :
    ((sortDescBy k l).take n).Pairwise (fun a b => k b ≤ k a) :=
  List.Pairwise.sublist (List.take_sublist n _) (sortDescBy_pairwise k l)

/-- Membership in a `filter / ORDER BY / LIMIT` block implies membership in
the table and the filter predicate. -/
theorem mem_sortFilterTake {β : Type} [LinearOrder β] {k : Entry → β} {p : Entry → Bool}
    {n : Nat} {rows : List Entry} {e : Entry}
    (h : e ∈ (sortDescBy k (rows.filter p)).take n) : p e = true ∧ e ∈ rows := by
  have h1 : e ∈ sortDescBy k (rows.filter p) := List.mem_of_mem_take h
  have h2 : e ∈ rows.filter p := (sortDescBy_perm k _).mem_iff.1 h1
  exact ⟨List.of_mem_filter h2, List.mem_of_mem_filter h2⟩

/-- A `filter / ORDER BY / LIMIT` block over a table with pairwise-distinct
ids again has pairwise-distinct ids. -/
theorem nodup_sortFilterTake {β : Type} [LinearOrder β] (k : Entry → β) (p : Entry → Bool)
    (n : Nat) (rows : List Entry) (hnd : (rows.map Entry.id).Nodup) :
    (((sortDescBy k (rows.filter p)).take n).map Entry.id).Nodup := by
  have h1 : ((rows.filter p).map Entry.id).Nodup :=
    List.Nodup.sublist ((rows.filter_sublist).map Entry.id) hnd
  have h2 : ((sortDescBy k (rows.filter p)).map Entry.id).Nodup :=
    (((sortDescBy_perm k (rows.filter p)).map Entry.id).nodup_iff).2 h1
  exact List.Nodup.sublist ((List.take_sublist n _).map Entry.id) h2

/-- `split` always returns at least one piece. -/
theorem splitNl_ne_nil (l : List Char) : splitNl l ≠ [] := by
  induction l with
  | nil => simp [splitNl]
  | cons c rest ih =>
    simp only [splitNl]
    split
    · simp
    · split
      · simp
      · simp

/-- A newline-free string splits into the single piece that is itself. -/
theorem splitNl_eq_self {l : List Char} (h : '\n' ∉ l) : splitNl l = [l] := by
  induction l with
  | nil => simp [splitNl]
  | cons c rest ih =>
    have hc : ¬ c = '\n' := fun hc => h (hc ▸ List.mem_cons_self c rest)
    have hrest : '\n' ∉ rest := fun hm => h (List.mem_cons_of_mem c hm)
    simp only [splitNl, if_neg hc, ih hrest]

/-- The last split piece never contains a newline. -/
theorem splitNl_getLastD_no_nl (l : List Char) : '\n' ∉ (splitNl l).getLastD [] := by
  induction l with
  | nil => simp [splitNl]
  | cons c rest ih =>
    rcases hs : splitNl rest with _ | ⟨p, ps⟩
    · exact absurd hs (splitNl_ne_nil rest)
    · rw [hs] at ih
      by_cases hc : c = '\n'
      · rw [splitNl, if_pos hc, hs]
        show '\n' ∉ ([] :: p :: ps).getLastD []
        rw [List.getLastD_cons]
        exact ih
      · rw [splitNl, if_neg hc, hs]
        show '\n' ∉ ((c :: p) :: ps).getLastD []
        rw [List.getLastD_cons]
        cases ps with
        | nil =>
          show '\n' ∉ c :: p
          intro hm
          rcases List.mem_cons.1 hm with h1 | h1
          · exact hc h1.symm
          · exact ih h1
        | cons q qs =>
          rw [List.getLastD_cons] at ih ⊢
          rw [List.getLastD_cons] at ih
          exact ih

/-- Unfolding rule: a leading newline closes an empty piece. -/
theorem splitNl_cons_nl (rest : List Char) : splitNl ('\n' :: rest) = [] :: splitNl rest := by
  rw [splitNl]
  simp

/-- Unfolding rule: a non-newline character extends the first piece. -/
theorem splitNl_cons_ne {c : Char} (hc : ¬ c = '\n') (rest : List Char) {p : List Char}
    {ps : List (List Char)} (hs : splitNl rest = p :: ps) :
    splitNl (c :: rest) = (c :: p) :: ps := by
  rw [splitNl, if_neg hc, hs]

/-- Splitting a concatenation: the completed pieces of the first part, then
the split of the dangling piece glued to the second part.  This is the
boundary-independence fact behind the read loop's buffer. -/
theorem splitNl_append (a b : List Char) :
    splitNl (a ++ b) =
      (splitNl a).dropLast ++ splitNl ((splitNl a).getLastD [] ++ b) := by
  induction a with
  | nil => simp [splitNl]
  | cons c a ih =>
    rcases hs : splitNl a with _ | ⟨p, ps⟩
    · exact absurd hs (splitNl_ne_nil a)
    · rw [hs] at ih
      by_cases hc : c = '\n'
      · subst hc
        rw [List.cons_append, splitNl_cons_nl, splitNl_cons_nl, ih, hs]
        simp only [List.getLastD_cons, List.dropLast_cons₂, List.cons_append]
      · rcases ps with _ | ⟨q, qs⟩
        · have hlast : ([p] : List (List Char)).getLastD [] = p := by
            simp [List.getLastD_cons, List.getLastD_nil]
          rw [hlast] at ih
          rcases ht : splitNl (p ++ b) with _ | ⟨r, rs⟩
          · exact absurd ht (splitNl_ne_nil _)
          · have hab : splitNl (a ++ b) = r :: rs := by rw [ih, ht]; simp
            rw [List.cons_append, splitNl_cons_ne hc (a ++ b) hab,
              splitNl_cons_ne hc a hs]
            have hlast2 : ([c :: p] : List (List Char)).getLastD [] = c :: p := by
              simp [List.getLastD_cons, List.getLastD_nil]
            rw [hlast2]
            show (c :: r) :: rs = [c :: p].dropLast ++ splitNl ((c :: p) ++ b)
            rw [List.cons_append, splitNl_cons_ne hc (p ++ b) ht]
            simp
        · have hab : splitNl (a ++ b) =
              p :: ((q :: qs).dropLast ++ splitNl (qs.getLastD q ++ b)) := by
            rw [ih]
            simp only [List.dropLast_cons₂, List.getLastD_cons, List.cons_append]
          rw [List.cons_append, splitNl_cons_ne hc (a ++ b) hab,
            splitNl_cons_ne hc a hs]
          simp only [List.dropLast_cons₂, List.getLastD_cons, List.cons_append]

/-- Dropping the last element of a concatenation with a nonempty tail. -/
theorem dropLast_append_ne {α : Type} (l₁ : List α) {l₂ : List α} (h : l₂ ≠ []) :
    (l₁ ++ l₂).dropLast = l₁ ++ l₂.dropLast := by
  rw [List.dropLast_append, if_neg (by simpa using h)]

/-- The read loop emits exactly the decodings of the completed lines of the
concatenated stream, in order: malformed lines are skipped (not aborted
on), and a line interrupted at a chunk boundary is processed only once its
newline has arrived; the final unterminated piece is never processed. -/
theorem readLoop_spec (dec : List Char → Option (List Char)) (buffer : List Char)
    (chunks : List (List Char)) (hb : '\n' ∉ buffer) :
    readLoop dec buffer chunks =
      ((splitNl (buffer ++ chunks.flatten)).dropLast).filterMap (processLine dec) := by
  induction chunks generalizing buffer with
  | nil =>
    rw [readLoop, List.flatten_nil, List.append_nil, splitNl_eq_self hb]
    simp
  | cons c cs ih =>
    rw [readLoop]
    have hb' : '\n' ∉ (chunkStep dec buffer c).1 := by
      simpa [chunkStep] using splitNl_getLastD_no_nl (buffer ++ c)
    rw [ih _ hb']
    simp only [chunkStep]
    rw [List.flatten_cons, ← List.append_assoc,
      splitNl_append (buffer ++ c) cs.flatten,
      dropLast_append_ne _ (splitNl_ne_nil _), List.filterMap_append]

/-- A false Boolean is not true (conditional-rewriting helper). -/
theorem bool_false_not_true {b : Bool} (h : b = false) : ¬ b = true := by
  rw [h]
  simp

/-- C3: the temporal window resolver is total: for every question text it
returns a window whose start is strictly before its (exclusive) end; it
recognizes the phrases in the fixed precedence yesterday, today, last
week, this week, and any other text resolves to the default trailing
window of the previous seven days through the end of today. -/
theorem temporal_resolver_total (message : String) (ck : Clock) :
    (resolveWindow message ck).1 < (resolveWindow message ck).2 ∧
    (jsIncludes (jsLower message) "yesterday".toList = true →
      resolveWindow message ck = (ck.today - dayMs, ck.today)) ∧
    (jsIncludes (jsLower message) "yesterday".toList = false →
      jsIncludes (jsLower message) "today".toList = true →
      resolveWindow message ck = (ck.today, ck.today + dayMs)) ∧
    (jsIncludes (jsLower message) "yesterday".toList = false →
      jsIncludes (jsLower message) "today".toList = false →
      jsIncludes (jsLower message) "last week".toList = true →
      resolveWindow message ck = (ck.today - 7 * dayMs, ck.today)) ∧
    (jsIncludes (jsLower message) "yesterday".toList = false →
      jsIncludes (jsLower message) "today".toList = false →
      jsIncludes (jsLower message) "last week".toList = false →
      jsIncludes (jsLower message) "this week".toList = true →
      resolveWindow message ck = (ck.today - (ck.dow : Int) * dayMs, ck.today + dayMs)) ∧
    (jsIncludes (jsLower message) "yesterday".toList = false →
      jsIncludes (jsLower message) "today".toList = false →
      jsIncludes (jsLower message) "last week".toList = false →
      jsIncludes (jsLower message) "this week".toList = false →
      resolveWindow message ck = (ck.today - 7 * dayMs, ck.today + dayMs)) := by
  refine ⟨?_, ?_, ?_, ?_, ?_, ?_⟩
  · unfold resolveWindow
    split_ifs <;> simp [dayMs] <;> omega
  · intro h1
    unfold resolveWindow
    rw [if_pos h1]
  · intro h1 h2
    unfold resolveWindow
    rw [if_neg (bool_false_not_true h1), if_pos h2]
  · intro h1 h2 h3
    unfold resolveWindow
    rw [if_neg (bool_false_not_true h1), if_neg (bool_false_not_true h2), if_pos h3]
  · intro h1 h2 h3 h4
    unfold resolveWindow
    rw [if_neg (bool_false_not_true h1), if_neg (bool_false_not_true h2), if_neg (bool_false_not_true h3), if_pos h4]
  · intro h1 h2 h3 h4
    unfold resolveWindow
    rw [if_neg (bool_false_not_true h1), if_neg (bool_false_not_true h2), if_neg (bool_false_not_true h3),
      if_neg (bool_false_not_true h4)]

/-- C3 witness: a question with no recognized phrase resolves to the
default trailing window. -/
theorem temporal_resolver_total_witness :
    resolveWindow "hm." { today := 0, dow := 3 } = (0 - 7 * dayMs, 0 + dayMs) :=
  (temporal_resolver_total "hm." { today := 0, dow := 3 }).2.2.2.2.2
    (by decide) (by decide) (by decide) (by decide)

/-- C4: the query classifier returns Temporal exactly when the lowercased
question contains some keyword of the fixed set as a substring, and
Semantic otherwise; it is a total function, so it always produces a
decision. -/
theorem classifier_keyword_rule (message : String) :
    (classify message = QueryClass.Temporal ↔
      ∃ k ∈ temporalKeywords, k.toList <:+: jsLower message) ∧
    (classify message = QueryClass.Semantic ↔
      ¬ ∃ k ∈ temporalKeywords, k.toList <:+: jsLower message) := by
  have hlow : ∀ k ∈ temporalKeywords, jsLower k = k.toList := by decide
  have h1 : isTemporalQuery message = true ↔
      ∃ k ∈ temporalKeywords, k.toList <:+: jsLower message := by
    unfold isTemporalQuery
    rw [List.any_eq_true]
    constructor
    · rintro ⟨k, hk, hinc⟩
      exact ⟨k, hk, by simpa [jsIncludes, hlow k hk] using hinc⟩
    · rintro ⟨k, hk, hinc⟩
      exact ⟨k, hk, by simpa [jsIncludes, hlow k hk] using hinc⟩
  constructor
  · rw [← h1]
    unfold classify
    cases hq : isTemporalQuery message <;> simp
  · rw [← h1]
    unfold classify
    cases hq : isTemporalQuery message <;> simp

/-- C7: the context assembler emits one line per record, with the body
truncated to at most 150 characters, and for the empty retrieval result it
emits the explicit no-entries marker instead of an empty block. -/
theorem context_assembler_spec (dateFmt : Int → String) (l : List ScoredEntry) :
    contextOf dateFmt [] = "\n\nNo relevant journal entries found." ∧
    (l ≠ [] →
      contextOf dateFmt l =
        "\n\nRelevant journal entries:\n"
          ++ String.intercalate "\n" (l.map (contextLine dateFmt)) ∧
      (l.map (contextLine dateFmt)).length = l.length) ∧
    (∀ se : ScoredEntry, (contextSnippet se.entry).length ≤ 150) := by
  refine ⟨by simp [contextOf], ?_, ?_⟩
  · intro hne
    refine ⟨?_, by simp⟩
    rw [contextOf, if_pos (by simpa using List.length_pos.2 hne)]
  · intro se
    unfold contextSnippet jsOrVal optChainSlice
    cases h : se.entry.text_content with
    | none => decide
    | some s =>
      simp only []
      split
      · decide
      · show (jsSlice s 150).length ≤ 150
        have : (jsSlice s 150).length = (s.toList.take 150).length := rfl
        rw [this, List.length_take]
        exact inf_le_left

/-- C7 witness: a one-record result yields the single formatted line. -/
theorem context_assembler_spec_witness :
    contextOf (fun _ => "D")
      [{ entry := { id := 1, user_id := 7, created_at := 0,
                    text_content := some "alpha", has_embedding := true },
         similarity := 800 }] =
      "\n\nRelevant journal entries:\n- D (80% relevant): alpha..." := by
  have h := (context_assembler_spec (fun _ => "D")
    [{ entry := { id := 1, user_id := 7, created_at := 0,
                  text_content := some "alpha", has_embedding := true },
       similarity := 800 }]).2.1 (by decide)
  exact h.1.trans (by decide)

/-- C10: in the sources frame, a record with a null or undefined
`text_content` gets the literal preview `undefined...`: the optional
chain yields undefined, concatenation with the ellipsis gives the truthy
string `undefined...`, and the no-text fallback branch is unreachable. -/
theorem sources_undefined_preview (e : Entry) :
    (e.text_content = none →
      sourceContent e = "undefined..." ∧ sourceContent e ≠ "No text content") ∧
    sourceContent e = jsAddStr (optChainSlice e.text_content 100) "..." := by
  have hne : jsAddStr (optChainSlice e.text_content 100) "..." ≠ "" := by
    cases h : e.text_content with
    | none => simp [optChainSlice, jsAddStr]
    | some s =>
      simp only [optChainSlice, jsAddStr]
      intro hc
      have hlen := congrArg String.length hc
      rw [String.length_append] at hlen
      have h3 : ("..." : String).length = 3 := by decide
      have h0 : ("" : String).length = 0 := by decide
      rw [h3, h0] at hlen
      omega
  constructor
  · intro h
    have heq : sourceContent e =
        jsOrStr (jsAddStr (optChainSlice (none : Option String) 100) "...")
          "No text content" := by
      rw [sourceContent, h]
    rw [heq]
    exact ⟨by decide, by decide⟩
  · rw [sourceContent, jsOrStr, if_neg hne]

/-- C10 witness: a concrete record with null text gets the `undefined...`
preview. -/
theorem sources_undefined_preview_witness :
    sourceContent { id := 1, user_id := 2, created_at := 3, text_content := none,
                    has_embedding := false } = "undefined..." :=
  ((sources_undefined_preview
    { id := 1, user_id := 2, created_at := 3, text_content := none,
      has_embedding := false }).1 rfl).1

/-- C2 counterexample: when the completion response has no body,
`response.body?.getReader()` is undefined and `start` closes the
controller at once, so a non-empty retrieval result can produce a stream
with no frames and in particular no sources frame, contradicting the
claim that the sources frame is always emitted (first) for a non-empty
result. -/
theorem stream_sources_missing_body_cex :
    streamFrames (fun _ => none)
      [{ entry := { id := 1, user_id := 7, created_at := 0,
                    text_content := some "alpha", has_embedding := true },
         similarity := 800 }] none = [] ∧
    (streamFrames (fun _ => none)
      [{ entry := { id := 1, user_id := 7, created_at := 0,
                    text_content := some "alpha", has_embedding := true },
         similarity := 800 }] none).countP Frame.isSources = 0 :=
  ⟨rfl, rfl⟩

/-- C2 (amended): at most one sources frame is ever emitted per stream;
when the retrieval result is empty no sources frame is emitted at all;
when the completion response has a body and the retrieval result is
non-empty, the sources frame is the first frame and every later frame is
a token frame; when the response has no body the stream closes with no
frames at all. -/
theorem stream_sources_first (dec : List Char → Option (List Char))
    (relevantEntries : List ScoredEntry) (body : Option (List (List Char))) :
    (streamFrames dec relevantEntries body).countP Frame.isSources ≤ 1 ∧
    (∀ chunks, body = some chunks → relevantEntries ≠ [] →
      streamFrames dec relevantEntries body =
        Frame.sources (sourcesOf relevantEntries)
          :: (readLoop dec [] chunks).map Frame.token) ∧
    (relevantEntries = [] →
      ∀ f ∈ streamFrames dec relevantEntries body, Frame.isSources f = false) ∧
    (body = none → streamFrames dec relevantEntries body = []) := by
  cases body with
  | none =>
    refine ⟨?_, ?_, ?_, fun _ => rfl⟩
    · rw [show streamFrames dec relevantEntries none = [] from rfl]
      simp
    · intro chunks hc
      exact absurd hc (by simp)
    · intro _ f hf
      rw [show streamFrames dec relevantEntries none = [] from rfl] at hf
      exact absurd hf (List.not_mem_nil f)
  | some chunks =>
    have hsome : streamFrames dec relevantEntries (some chunks) =
        (if relevantEntries.length > 0
          then [Frame.sources (sourcesOf relevantEntries)] else [])
          ++ (readLoop dec [] chunks).map Frame.token := rfl
    have htok : ∀ f ∈ (readLoop dec [] chunks).map Frame.token,
        Frame.isSources f = false := by
      intro f hf
      rcases List.mem_map.1 hf with ⟨t, _, rfl⟩
      rfl
    have h0 : List.countP Frame.isSources
        ((readLoop dec [] chunks).map Frame.token) = 0 :=
      List.countP_eq_zero.2 (fun f hf => by simp [htok f hf])
    refine ⟨?_, ?_, ?_, by simp⟩
    · rw [hsome, List.countP_append, h0]
      split
      · simp [List.countP_cons, Frame.isSources]
      · simp
    · intro chunks2 hc hne
      have hcc : chunks = chunks2 := by injection hc
      subst hcc
      rw [hsome, if_pos (by simpa using List.length_pos.2 hne)]
      rfl
    · intro heq
      subst heq
      rw [hsome]
      simp only [List.length_nil, gt_iff_lt, lt_self_iff_false, if_false,
        List.nil_append]
      exact htok

/-- C2 witness: with a body present, a non-empty retrieval result over an
empty token stream yields exactly the single leading sources frame. -/
theorem stream_sources_first_witness :
    streamFrames (fun _ => none)
      [{ entry := { id := 1, user_id := 7, created_at := 0,
                    text_content := some "alpha", has_embedding := true },
         similarity := 800 }] (some []) =
      [Frame.sources (sourcesOf
        [{ entry := { id := 1, user_id := 7, created_at := 0,
                      text_content := some "alpha", has_embedding := true },
           similarity := 800 }])] := by
  have h := (stream_sources_first (fun _ => none)
    [{ entry := { id := 1, user_id := 7, created_at := 0,
                  text_content := some "alpha", has_embedding := true },
       similarity := 800 }] (some [])).2.1 [] rfl (by decide)
  simpa [readLoop] using h

/-- C8: the token frames the stream carries are exactly the successful
decodings of the completed lines of the whole concatenated service
stream, in arrival order: a line that fails to decode or lacks the
`data: ` marker is skipped without aborting, and a line interrupted at a
chunk boundary is processed only once a later chunk completes it (the
final unterminated piece stays in the buffer and is never decoded). -/
theorem stream_decode_skip (dec : List Char → Option (List Char))
    (relevantEntries : List ScoredEntry) (chunks : List (List Char)) :
    streamFrames dec relevantEntries (some chunks) =
      (if relevantEntries.length > 0
        then [Frame.sources (sourcesOf relevantEntries)] else [])
        ++ (((splitNl chunks.flatten).dropLast).filterMap
              (processLine dec)).map Frame.token := by
  have hsome : streamFrames dec relevantEntries (some chunks) =
      (if relevantEntries.length > 0
        then [Frame.sources (sourcesOf relevantEntries)] else [])
        ++ (readLoop dec [] chunks).map Frame.token := rfl
  rw [hsome, readLoop_spec dec [] chunks (by simp), List.nil_append]

/-- Case analysis of the orchestrator: either the fallback rule fires
(primary error or empty primary result) or the primary result is returned
unchanged. -/
theorem ragRetrieve_cases (message : String) (userId : Nat) (ck : Clock)
    (sim : Entry → Int) (st : Store) :
    (((primaryRetrieval message userId ck sim st).2 = true ∨
        (primaryRetrieval message userId ck sim st).1 = []) ∧
      ragRetrieve message userId ck sim st = recencyFallback st userId) ∨
    ((primaryRetrieval message userId ck sim st).2 = false ∧
      (primaryRetrieval message userId ck sim st).1 ≠ [] ∧
      ragRetrieve message userId ck sim st =
        .ok (primaryRetrieval message userId ck sim st).1) := by
  have hdef : ragRetrieve message userId ck sim st =
      if (primaryRetrieval message userId ck sim st).2
          || (primaryRetrieval message userId ck sim st).1.isEmpty
        then recencyFallback st userId
        else .ok (primaryRetrieval message userId ck sim st).1 := rfl
  cases h2 : (primaryRetrieval message userId ck sim st).2 with
  | true =>
    left
    refine ⟨Or.inl rfl, ?_⟩
    rw [hdef, h2]
    simp
  | false =>
    rcases h1 : (primaryRetrieval message userId ck sim st).1 with _ | ⟨a, as⟩
    · left
      refine ⟨Or.inr rfl, ?_⟩
      rw [hdef, h2, h1]
      simp
    · right
      refine ⟨rfl, by simp, ?_⟩
      rw [hdef, h2, h1]
      simp

/-- Shape analysis of a successful retrieval: the result is the recency
fallback block, the temporal window block, or the vector-search block. -/
theorem ragRetrieve_shapes (message : String) (userId : Nat) (ck : Clock)
    (sim : Entry → Int) (st : Store) (l : List ScoredEntry)
    (hok : ragRetrieve message userId ck sim st = .ok l) :
    l = (recentTop5 st userId).map
        (fun entry => ({ entry := entry, similarity := 500 } : ScoredEntry)) ∨
    (isTemporalQuery message = true ∧
      l = (windowRows st userId (resolveWindow message ck).1
            (resolveWindow message ck).2).map
          (fun entry => ({ entry := entry, similarity := 800 } : ScoredEntry)) ∧
      (primaryRetrieval message userId ck sim st).1 = l ∧
      (primaryRetrieval message userId ck sim st).2 = false ∧ l ≠ []) ∨
    (isTemporalQuery message = false ∧
      l = matchEntries sim 300 5 userId st.entries ∧
      (primaryRetrieval message userId ck sim st).1 = l ∧
      (primaryRetrieval message userId ck sim st).2 = false ∧ l ≠ []) := by
  rcases ragRetrieve_cases message userId ck sim st with ⟨_, heq⟩ | ⟨h2, h1, heq⟩
  · left
    rw [heq] at hok
    cases hr : st.recentOk with
    | false => simp [recencyFallback, recentEntriesQuery, hr] at hok
    | true =>
      simp only [recencyFallback, recentEntriesQuery, hr] at hok
      simp at hok
      exact hok.symm
  · rw [heq] at hok
    have hl : (primaryRetrieval message userId ck sim st).1 = l := by
      simpa using hok
    have hlne : l ≠ [] := hl ▸ h1
    cases ht : isTemporalQuery message with
    | true =>
      right
      left
      have hl' : handleTemporalQuery message userId ck st = l := by
        simpa [primaryRetrieval, ht] using hl
      cases htq : st.temporalOk with
      | false =>
        exact absurd (by simpa [handleTemporalQuery, temporalWindowQuery, htq]
          using hl'.symm) hlne
      | true =>
        refine ⟨rfl, ?_, hl, h2, hlne⟩
        have hwr := hl'.symm
        simpa [handleTemporalQuery, temporalWindowQuery, htq] using hwr
    | false =>
      right
      right
      cases hm : st.matchOk with
      | false =>
        have : (primaryRetrieval message userId ck sim st).2 = true := by
          simp [primaryRetrieval, ht, vectorSearch, hm]
        rw [h2] at this
        exact absurd this (by simp)
      | true =>
        refine ⟨rfl, ?_, hl, h2, hlne⟩
        have := hl.symm
        simpa [primaryRetrieval, ht, vectorSearch, hm] using this

/-- Membership facts for the `match_entries` block: owner filter, embedding
filter, threshold filter. -/
theorem matchEntries_mem {sim : Entry → Int} {th : Int} {n : Nat} {uid : Nat}
    {rows : List Entry} {se : ScoredEntry}
    (hse : se ∈ matchEntries sim th n uid rows) :
    se.entry.user_id = uid ∧ se.entry.has_embedding = true ∧ th < se.similarity := by
  unfold matchEntries at hse
  rcases List.mem_map.1 hse with ⟨r, hr, rfl⟩
  have h := (mem_sortFilterTake hr).1
  simp only [Bool.and_eq_true, beq_iff_eq, decide_eq_true_eq] at h
  exact ⟨h.1.1, h.1.2, h.2⟩

/-- Order, id, and length facts for the `match_entries` block. -/
theorem matchEntries_props (sim : Entry → Int) (th : Int) (n : Nat) (uid : Nat)
    (rows : List Entry) (hnd : (rows.map Entry.id).Nodup) :
    (matchEntries sim th n uid rows).Pairwise
      (fun a b => b.similarity ≤ a.similarity) ∧
    (entryIds (matchEntries sim th n uid rows)).Nodup ∧
    (matchEntries sim th n uid rows).length ≤ n := by
  unfold matchEntries
  refine ⟨?_, ?_, ?_⟩
  · rw [List.pairwise_map]
    exact (sortTake_pairwise sim _ n).imp (fun hab => hab)
  · unfold entryIds
    rw [List.map_map]
    exact nodup_sortFilterTake sim _ n rows hnd
  · rw [List.length_map, List.length_take]
    exact inf_le_left

/-- Order, id, and length facts for a constant-relevance block (the
temporal window block and the recency fallback block). -/
theorem constScore_block_props (p : Entry → Bool) (n : Nat) (c : Int)
    (rows : List Entry) (hnd : (rows.map Entry.id).Nodup) :
    resultOrdered (((sortDescBy (fun e => e.created_at) (rows.filter p)).take n).map
      (fun entry => ({ entry := entry, similarity := c } : ScoredEntry))) ∧
    (entryIds (((sortDescBy (fun e => e.created_at) (rows.filter p)).take n).map
      (fun entry => ({ entry := entry, similarity := c } : ScoredEntry)))).Nodup ∧
    (((sortDescBy (fun e => e.created_at) (rows.filter p)).take n).map
      (fun entry => ({ entry := entry, similarity := c } : ScoredEntry))).length ≤ n := by
  refine ⟨?_, ?_, ?_⟩
  · unfold resultOrdered
    rw [List.pairwise_map]
    exact (sortTake_pairwise _ _ n).imp (fun hab => Or.inr ⟨rfl, hab⟩)
  · unfold entryIds
    rw [List.map_map]
    exact nodup_sortFilterTake _ p n rows hnd
  · rw [List.length_map, List.length_take]
    exact inf_le_left

/-- A result satisfying the full ordering invariant has non-increasing
relevance. -/
theorem resultOrdered_relevance {l : List ScoredEntry} (h : resultOrdered l) :
    l.Pairwise (fun a b => b.similarity ≤ a.similarity) := by
  unfold resultOrdered at h
  exact h.imp (fun hab => hab.elim (fun hlt => le_of_lt hlt) (fun hand => le_of_eq hand.1.symm))

/-- C1: whenever the primary retrieval path reports an error or yields
zero records, the orchestrator's final result is exactly the user's five
most recent records with the fixed moderate fallback relevance, and if the
fallback store query itself fails the request ends in the hard error with
no stream started. -/
theorem fallback_rule_total (message : String) (userId : Nat) (ck : Clock)
    (sim : Entry → Int) (st : Store) (dec : List Char → Option (List Char))
    (body : Option (List (List Char)))
    (hp : (primaryRetrieval message userId ck sim st).2 = true ∨
      (primaryRetrieval message userId ck sim st).1 = []) :
    ragRetrieve message userId ck sim st = recencyFallback st userId ∧
    (st.recentOk = true →
      ragRetrieve message userId ck sim st =
        .ok ((recentTop5 st userId).map
          (fun entry => { entry := entry, similarity := 500 })) ∧
      ∀ l, ragRetrieve message userId ck sim st = .ok l →
        l.length ≤ 5 ∧ ∀ se ∈ l, se.similarity = 500) ∧
    (st.recentOk = false →
      ragEndpoint message userId ck sim st dec body = .error ()) := by
  have hfb : ragRetrieve message userId ck sim st = recencyFallback st userId := by
    rcases ragRetrieve_cases message userId ck sim st with ⟨_, heq⟩ | ⟨h2, h1, _⟩
    · exact heq
    · rcases hp with hp | hp
      · rw [h2] at hp
        exact absurd hp (by simp)
      · exact absurd hp h1
  refine ⟨hfb, ?_, ?_⟩
  · intro hr
    have hok : ragRetrieve message userId ck sim st =
        .ok ((recentTop5 st userId).map
          (fun entry => ({ entry := entry, similarity := 500 } : ScoredEntry))) := by
      rw [hfb]
      simp [recencyFallback, recentEntriesQuery, hr]
    refine ⟨hok, ?_⟩
    intro l hl
    rw [hok] at hl
    have hleq : (recentTop5 st userId).map
        (fun entry => ({ entry := entry, similarity := 500 } : ScoredEntry)) = l := by
      simpa using hl
    constructor
    · rw [← hleq, List.length_map]
      unfold recentTop5
      rw [List.length_take]
      exact inf_le_left
    · intro se hse
      rw [← hleq] at hse
      rcases List.mem_map.1 hse with ⟨r, _, rfl⟩
      rfl
  · intro hr
    unfold ragEndpoint
    rw [hfb]
    simp [recencyFallback, recentEntriesQuery, hr]

/-- C1 witness: a semantic question whose matches all fall below the
threshold falls back to the single most recent record at relevance 500. -/
theorem fallback_rule_total_witness :
    ragRetrieve "chess puzzle" 7 { today := 0, dow := 0 } (fun _ => 100)
      { entries := [{ id := 1, user_id := 7, created_at := 50,
                      text_content := none, has_embedding := true }],
        temporalOk := true, matchOk := true, recentOk := true } =
      .ok [{ entry := { id := 1, user_id := 7, created_at := 50,
                        text_content := none, has_embedding := true },
             similarity := 500 }] := by
  have h := (fallback_rule_total "chess puzzle" 7 { today := 0, dow := 0 }
    (fun _ => 100)
    { entries := [{ id := 1, user_id := 7, created_at := 50,
                    text_content := none, has_embedding := true }],
      temporalOk := true, matchOk := true, recentOk := true }
    (fun _ => none) none (Or.inr (by decide))).2.1 rfl
  exact h.1.trans (by decide)

/-- C5 counterexample: in the semantic branch the store query orders by
distance only, with no secondary ordering, so two records of equal
similarity can come back oldest first; the claimed recency tie-break is
violated on this concrete store. -/
theorem retrieval_tie_order_cex :
    ragRetrieve "chess" 7 { today := 0, dow := 0 } (fun _ => 500)
      { entries := [
          { id := 1, user_id := 7, created_at := 100, text_content := none,
            has_embedding := true },
          { id := 2, user_id := 7, created_at := 0, text_content := none,
            has_embedding := true }],
        temporalOk := true, matchOk := true, recentOk := true } =
      .ok [
        { entry := { id := 2, user_id := 7, created_at := 0, text_content := none,
                     has_embedding := true }, similarity := 500 },
        { entry := { id := 1, user_id := 7, created_at := 100, text_content := none,
                     has_embedding := true }, similarity := 500 }] ∧
    ¬ resultOrdered [
        { entry := { id := 2, user_id := 7, created_at := 0, text_content := none,
                     has_embedding := true }, similarity := 500 },
        { entry := { id := 1, user_id := 7, created_at := 100, text_content := none,
                     has_embedding := true }, similarity := 500 }] := by
  constructor
  · decide
  · decide

/-- C5 (amended): every successful retrieval result has non-increasing
relevance, no duplicate record ids, and respects the branch caps (10
temporal, 5 semantic and fallback); the full relevance-then-recency
ordering holds for the temporal and fallback branches, while the semantic
branch only guarantees relevance-descending order. -/
theorem retrieval_result_invariants (message : String) (userId : Nat)
    (ck : Clock) (sim : Entry → Int) (st : Store)
    (hnd : (st.entries.map Entry.id).Nodup) (l : List ScoredEntry)
    (hok : ragRetrieve message userId ck sim st = .ok l) :
    l.Pairwise (fun a b => b.similarity ≤ a.similarity) ∧
    (entryIds l).Nodup ∧
    (isTemporalQuery message = true → l.length ≤ 10) ∧
    (isTemporalQuery message = false → l.length ≤ 5) ∧
    ((isTemporalQuery message = true ∨
      (primaryRetrieval message userId ck sim st).2 = true ∨
      (primaryRetrieval message userId ck sim st).1 = []) → resultOrdered l) := by
  rcases ragRetrieve_shapes message userId ck sim st l hok with
    hsh | ⟨ht, hsh, hp1, hp2, hne⟩ | ⟨ht, hsh, hp1, hp2, hne⟩
  · subst hsh
    have hprops := constScore_block_props (fun x => x.user_id == userId) 5 500
      st.entries hnd
    exact ⟨resultOrdered_relevance hprops.1, hprops.2.1,
      fun _ => le_trans hprops.2.2 (by norm_num),
      fun _ => hprops.2.2, fun _ => hprops.1⟩
  · subst hsh
    have hprops := constScore_block_props
      (fun x => x.user_id == userId &&
        decide ((resolveWindow message ck).1 ≤ x.created_at) &&
        decide (x.created_at < (resolveWindow message ck).2)) 10 800
      st.entries hnd
    refine ⟨resultOrdered_relevance hprops.1, hprops.2.1,
      fun _ => hprops.2.2, ?_, fun _ => hprops.1⟩
    intro hf
    rw [ht] at hf
    exact absurd hf (by simp)
  · subst hsh
    have hprops := matchEntries_props sim 300 5 userId st.entries hnd
    refine ⟨hprops.1, hprops.2.1,
      fun _ => le_trans hprops.2.2 (by norm_num),
      fun _ => hprops.2.2, ?_⟩
    intro hpre
    rcases hpre with h | h | h
    · rw [ht] at h
      exact absurd h (by simp)
    · rw [hp2] at h
      exact absurd h (by simp)
    · exact absurd (hp1.symm.trans h) hne

/-- C5 witness: a temporal one-record run satisfies the invariants. -/
theorem retrieval_result_invariants_witness :
    List.Pairwise (fun a b : ScoredEntry => b.similarity ≤ a.similarity)
      [{ entry := { id := 1, user_id := 7, created_at := 5,
                    text_content := none, has_embedding := false },
         similarity := 800 }] :=
  (retrieval_result_invariants "today x" 7 { today := 0, dow := 0 } (fun _ => 0)
    { entries := [{ id := 1, user_id := 7, created_at := 5,
                    text_content := none, has_embedding := false }],
      temporalOk := true, matchOk := true, recentOk := true }
    (by decide)
    [{ entry := { id := 1, user_id := 7, created_at := 5,
                  text_content := none, has_embedding := false },
       similarity := 800 }]
    (by decide)).1

/-- C6: the temporal branch returns exactly the user's records inside the
resolved window, newest first, at most 10, all at the fixed high
relevance; a store failure yields the empty result instead of an error. -/
theorem temporal_branch_spec (message : String) (userId : Nat) (ck : Clock)
    (st : Store) :
    (st.temporalOk = false → handleTemporalQuery message userId ck st = []) ∧
    (st.temporalOk = true →
      handleTemporalQuery message userId ck st =
        (windowRows st userId (resolveWindow message ck).1
          (resolveWindow message ck).2).map
          (fun entry => { entry := entry, similarity := 800 }) ∧
      (handleTemporalQuery message userId ck st).length ≤ 10 ∧
      (∀ se ∈ handleTemporalQuery message userId ck st,
        se.similarity = 800 ∧ se.entry.user_id = userId ∧
        (resolveWindow message ck).1 ≤ se.entry.created_at ∧
        se.entry.created_at < (resolveWindow message ck).2) ∧
      (handleTemporalQuery message userId ck st).Pairwise
        (fun a b => b.entry.created_at ≤ a.entry.created_at)) := by
  constructor
  · intro h
    simp [handleTemporalQuery, temporalWindowQuery, h]
  · intro h
    have heq : handleTemporalQuery message userId ck st =
        (windowRows st userId (resolveWindow message ck).1
          (resolveWindow message ck).2).map
          (fun entry => ({ entry := entry, similarity := 800 } : ScoredEntry)) := by
      simp [handleTemporalQuery, temporalWindowQuery, h]
    refine ⟨heq, ?_, ?_, ?_⟩
    · rw [heq, List.length_map]
      unfold windowRows
      rw [List.length_take]
      exact inf_le_left
    · intro se hse
      rw [heq] at hse
      rcases List.mem_map.1 hse with ⟨r, hr, rfl⟩
      have hr' : r ∈ (sortDescBy (fun e => e.created_at)
          (st.entries.filter (fun x => x.user_id == userId &&
            decide ((resolveWindow message ck).1 ≤ x.created_at) &&
            decide (x.created_at < (resolveWindow message ck).2)))).take 10 := hr
      have hp := (mem_sortFilterTake hr').1
      simp only [Bool.and_eq_true, beq_iff_eq, decide_eq_true_eq] at hp
      exact ⟨rfl, hp.1.1, hp.1.2, hp.2⟩
    · rw [heq, List.pairwise_map]
      unfold windowRows byCreatedDesc
      exact (sortTake_pairwise (fun e : Entry => e.created_at) _ 10).imp
        (fun hab => hab)

/-- C6 witness: one matching record yields that record at relevance 800. -/
theorem temporal_branch_spec_witness :
    handleTemporalQuery "today x" 7 { today := 0, dow := 0 }
      { entries := [{ id := 1, user_id := 7, created_at := 5,
                      text_content := none, has_embedding := false }],
        temporalOk := true, matchOk := true, recentOk := true } =
      [{ entry := { id := 1, user_id := 7, created_at := 5,
                    text_content := none, has_embedding := false },
         similarity := 800 }] := by
  have h := (temporal_branch_spec "today x" 7 { today := 0, dow := 0 }
    { entries := [{ id := 1, user_id := 7, created_at := 5,
                    text_content := none, has_embedding := false }],
      temporalOk := true, matchOk := true, recentOk := true }).2 rfl
  exact h.1.trans (by decide)

/-- C9: every record of a successful retrieval belongs to the requesting
user: all three retrieval paths filter on the authenticated user's id, so
no request ever returns another user's record. -/
theorem retrieval_user_scoped (message : String) (userId : Nat) (ck : Clock)
    (sim : Entry → Int) (st : Store) (l : List ScoredEntry)
    (hok : ragRetrieve message userId ck sim st = .ok l) :
    (∀ se ∈ l, se.entry.user_id = userId) ∧
    (∀ other, other ≠ userId → ∀ se ∈ l, se.entry.user_id ≠ other) := by
  have hmain : ∀ se ∈ l, se.entry.user_id = userId := by
    rcases ragRetrieve_shapes message userId ck sim st l hok with
      hsh | ⟨_, hsh, _⟩ | ⟨_, hsh, _⟩
    · intro se hse
      rw [hsh] at hse
      rcases List.mem_map.1 hse with ⟨r, hr, rfl⟩
      have hr' : r ∈ (sortDescBy (fun e => e.created_at)
          (st.entries.filter (fun x => x.user_id == userId))).take 5 := hr
      have hp := (mem_sortFilterTake hr').1
      simpa using hp
    · intro se hse
      rw [hsh] at hse
      rcases List.mem_map.1 hse with ⟨r, hr, rfl⟩
      have hr' : r ∈ (sortDescBy (fun e => e.created_at)
          (st.entries.filter (fun x => x.user_id == userId &&
            decide ((resolveWindow message ck).1 ≤ x.created_at) &&
            decide (x.created_at < (resolveWindow message ck).2)))).take 10 := hr
      have hp := (mem_sortFilterTake hr').1
      simp only [Bool.and_eq_true, beq_iff_eq, decide_eq_true_eq] at hp
      exact hp.1.1
    · intro se hse
      rw [hsh] at hse
      exact (matchEntries_mem hse).1
  exact ⟨hmain, fun other hne se hse h => hne (h.symm.trans (hmain se hse))⟩

/-- C9 witness: the record returned for user 7 belongs to user 7. -/
theorem retrieval_user_scoped_witness :
    ({ entry := { id := 1, user_id := 7, created_at := 5,
                  text_content := none, has_embedding := false },
       similarity := 800 } : ScoredEntry).entry.user_id = 7 := by
  have h := (retrieval_user_scoped "today x" 7 { today := 0, dow := 0 } (fun _ => 0)
    { entries := [{ id := 1, user_id := 7, created_at := 5,
                    text_content := none, has_embedding := false }],
      temporalOk := true, matchOk := true, recentOk := true }
    [{ entry := { id := 1, user_id := 7, created_at := 5,
                  text_content := none, has_embedding := false },
       similarity := 800 }] (by decide)).1
  exact h _ (List.mem_singleton.2 rfl)

end Yournal
